import Mathlib

/-!
Shallow embedding of `src/app.py` (Railway FFmpeg Service): a Flask app with
one processing endpoint `POST /cut` that validates an upload plus `start` /
`duration` form fields, saves the upload to a per-job temp path, runs the
external ffmpeg binary under a 300 s timeout, streams the result back, and
deletes both temp files on every exit path.

Python strings are embedded as `String` / `List Char`; machine floats returned
by Python's `float()` are embedded as exact rationals `ℚ` (all numeric
comparisons performed by the code — `>= 0`, `< 15`, `> 60` — are exact on the
decimal literals the parser produces, so no rounding is observable);
the filesystem is an association list from paths to byte lists; the
nondeterministic outcome of the external encoder run is an explicit parameter.
-/

/-! ## Bytes, uploads, requests (the data the handler reads) -/

/-- Byte string of an uploaded or produced file. -/
abbrev Bytes := List Nat

/-- The `file` part of the multipart form: `file.filename` and the bytes
`file.save` would write. -/
structure FilePart where
  filename : String
  content : Bytes
deriving DecidableEq, Repr

/-- The parts of a `POST /cut` request the handler reads: the optional
`file` part and the raw `start` / `duration` form fields
(`request.form.get` returns `None` when a field is absent). -/
structure CutRequest where
  file : Option FilePart
  start : Option String
  duration : Option String
deriving DecidableEq, Repr

/-! ## Python `float()` on plain decimal literals -/

/-- Numeric value of a digit list, most significant first
(e.g. `['4','2'] ↦ 42`). -/
def digitsVal (l : List Char) : Nat :=
  l.foldl (fun a c => a * 10 + (c.toNat - 48)) 0

/-- Unicode code point test for the whitespace characters Python strips and
splits on: space, tab, LF, VT, FF, CR. -/
def isWs (c : Char) : Bool :=
  c.toNat = 32 || c.toNat = 9 || c.toNat = 10 || c.toNat = 11 || c.toNat = 13 || c.toNat = 12

/-- Unsigned decimal literal: `digits`, `digits.digits`, `digits.` or
`.digits`, value as an exact rational. -/
def parseDecimal (l : List Char) : Option ℚ :=
  let intPart := l.takeWhile (fun c => c ≠ '.')
  let rest := l.dropWhile (fun c => c ≠ '.')
  match rest with
  | [] =>
    if intPart ≠ [] ∧ intPart.all Char.isDigit then some (digitsVal intPart) else none
  | _ :: frac =>
    if frac.contains '.' then none
    else if (intPart ≠ [] ∨ frac ≠ []) ∧ intPart.all Char.isDigit ∧ frac.all Char.isDigit then
      some ((digitsVal intPart : ℚ) + (digitsVal frac : ℚ) / ((10 : ℚ) ^ frac.length))
    else none

/-- Python's `float(value)` on optionally signed plain decimal literals with
surrounding whitespace, `none` when `float` raises `ValueError`.
(Exponent, `inf` / `nan` and underscore-separator forms of the literal
grammar are outside the model; the handler's inputs of interest are plain
decimals.) -/
def pyFloat (s : String) : Option ℚ :=
  let l := ((s.data.dropWhile isWs).reverse.dropWhile isWs).reverse
  match l with
  | '-' :: rest => (parseDecimal rest).map (fun q => -q)
  | '+' :: rest => parseDecimal rest
  | _ => parseDecimal l

/-! ## Validation helpers (`app.py` lines 16-30) -/

/-- `ALLOWED_EXTENSIONS = {'mp4', 'avi', 'mov', 'mkv', 'webm'}` (line 17). -/
def ALLOWED_EXTENSIONS : List String := ["mp4", "avi", "mov", "mkv", "webm"]

/-- `MAX_FILE_SIZE = 500 * 1024 * 1024` (line 18) — declared and never used. -/
def MAX_FILE_SIZE : Nat := 500 * 1024 * 1024

/-- `filename.rsplit('.', 1)[1]`: the characters after the last `'.'`. -/
def afterLastDot (l : List Char) : List Char :=
  (l.reverse.takeWhile (fun c => c ≠ '.')).reverse

/-- ASCII-wise `str.lower()` (the extensions compared against are ASCII). -/
def lowerStr (l : List Char) : List Char := l.map Char.toLower

/-- `allowed_file(filename)` (lines 21-22):
`'.' in filename and filename.rsplit('.', 1)[1].lower() in ALLOWED_EXTENSIONS`. -/
def allowed_file (filename : String) : Bool :=
  filename.data.contains '.' &&
    ALLOWED_EXTENSIONS.contains (String.mk (lowerStr (afterLastDot filename.data)))

/-- `validate_timestamp(value)` (lines 24-30): `float(value)` parses and the
value is `>= 0`; parse failure returns `False`. -/
def validate_timestamp (value : String) : Bool :=
  match pyFloat value with
  | some num => decide (0 ≤ num)
  | none => false

/-! ## The validation stage of `cut_video` (lines 57-84) -/

/-- Outcome of the request-validation prefix of `cut_video`: an early
`(jsonify({'error': e}), status)` return, or fall-through to processing with
the values the later code uses. -/
inductive Validation where
  | reject (status : Nat) (error : String)
  | accept (filename : String) (content : Bytes) (start duration : ℚ)
deriving DecidableEq, Repr

/-- Lines 57-84 of `cut_video`: the checks before any filesystem or process
resource is touched, in source order — missing file part, empty filename,
extension allow-list, `start` timestamp (default `'0'`), `duration`
presence/timestamp, then the 15-60 s duration range. -/
def validateCut (r : CutRequest) : Validation :=
  match r.file with
  | none => .reject 400 "No file provided"
  | some f =>
    if f.filename = "" then .reject 400 "Empty filename"
    else if !allowed_file f.filename then
      .reject 400 "Invalid file type. Allowed: mp4, avi, mov, mkv, webm"
    else
      let startStr := r.start.getD "0"
      if !validate_timestamp startStr then .reject 400 "Invalid start timestamp"
      else
        match r.duration with
        | none => .reject 400 "Invalid or missing duration"
        | some durStr =>
          if durStr = "" || !validate_timestamp durStr then
            .reject 400 "Invalid or missing duration"
          else
            let start := (pyFloat startStr).getD 0
            let duration := (pyFloat durStr).getD 0
            if duration < 15 ∨ duration > 60 then
              .reject 400 "Duration must be between 15 and 60 seconds"
            else .accept f.filename f.content start duration

/-- The externally observable accept/reject decision of validation:
`some (status, error)` on rejection, `none` on fall-through to processing. -/
def validationOutcome (r : CutRequest) : Option (Nat × String) :=
  match validateCut r with
  | .reject s e => some (s, e)
  | .accept _ _ _ _ => none



/-! ## Workspace paths (`app.py` lines 16, 86-92)

`secure_filename` is `werkzeug.utils.secure_filename`, the sanitizer the code
applies to the uploaded filename; it is embedded here after werkzeug's
implementation on the posix deployment (`os.sep = '/'`, no `os.altsep`):
drop non-ASCII, turn separators into spaces, join the whitespace-split words
with underscores, keep only `[A-Za-z0-9_.-]`, strip leading/trailing `.`/`_`.
(The NFKD fold werkzeug applies before the ASCII filter is not decomposed
here: non-ASCII characters are dropped rather than transliterated.) -/

/-- Characters kept by werkzeug's filename filter, the ASCII class
`[A-Za-z0-9_.-]`. -/
def keepFileChar (c : Char) : Bool :=
  (65 ≤ c.toNat && c.toNat ≤ 90) || (97 ≤ c.toNat && c.toNat ≤ 122) ||
    (48 ≤ c.toNat && c.toNat ≤ 57) || c.toNat = 95 || c.toNat = 46 || c.toNat = 45

/-- Characters stripped from both ends by `.strip("._")`: `'.'` and `'_'`. -/
def stripChar (c : Char) : Bool := c.toNat = 46 || c.toNat = 95

/-- `str.encode("ascii", "ignore")`: drop all non-ASCII characters. -/
def asciiOnly (l : List Char) : List Char := l.filter (fun c => c.toNat < 128)

/-- `filename.replace(os.sep, " ")` with `os.sep = '/'`. -/
def sepToSpace (l : List Char) : List Char :=
  l.map (fun c => if c = '/' then ' ' else c)

/-- Accumulator pass of Python's `str.split()`: split on whitespace runs,
discarding empty pieces. -/
def splitWsAux : List Char → List Char → List (List Char)
  | [], acc => if acc = [] then [] else [acc.reverse]
  | c :: cs, acc =>
    if isWs c then
      if acc = [] then splitWsAux cs [] else acc.reverse :: splitWsAux cs []
    else splitWsAux cs (c :: acc)

/-- Python's `str.split()` (no separator argument). -/
def pySplitWs (l : List Char) : List (List Char) := splitWsAux l []

/-- `"_".join(tokens)`. -/
def joinUnderscore : List (List Char) → List Char
  | [] => []
  | [t] => t
  | t :: ts => t ++ '_' :: joinUnderscore ts

/-- `.strip("._")`: drop `'.'` and `'_'` from both ends. -/
def stripEnds (l : List Char) : List Char :=
  ((l.dropWhile stripChar).reverse.dropWhile stripChar).reverse

/-- `werkzeug.utils.secure_filename` on posix (see section comment). -/
def secure_filename (s : String) : String :=
  String.mk
    (stripEnds ((joinUnderscore (pySplitWs (sepToSpace (asciiOnly s.data)))).filter keepFileChar))

/-- `UPLOAD_FOLDER = tempfile.gettempdir()` (line 16), which resolves to
`/tmp` in the posix deployment the service targets. -/
def UPLOAD_FOLDER : String := "/tmp"

/-- `os.path.join(a, b)` for one posix component: `b` if absolute, else `a`
and `b` joined with a single `'/'`. -/
def os_path_join (a b : String) : String :=
  if b.data.head? = some '/' then b
  else if a.data.getLast? = some '/' then a ++ b
  else a ++ "/" ++ b

/-- `input_filename = secure_filename(f"{job_id}_input_{file.filename}")`
(line 88). -/
def input_filename (job_id filename : String) : String :=
  secure_filename (job_id ++ "_input_" ++ filename)

/-- `output_filename = f"{job_id}_output.mp4"` (line 89). -/
def output_filename (job_id : String) : String := job_id ++ "_output.mp4"

/-- `input_path = os.path.join(UPLOAD_FOLDER, input_filename)` (line 91). -/
def input_path (job_id filename : String) : String :=
  os_path_join UPLOAD_FOLDER (input_filename job_id filename)

/-- `output_path = os.path.join(UPLOAD_FOLDER, output_filename)` (line 92). -/
def output_path (job_id : String) : String :=
  os_path_join UPLOAD_FOLDER (output_filename job_id)

/-! ## Filesystem and processing model (`app.py` lines 94-184)

The temp directory is an association list from paths to contents; `os.remove`
may fail (permissions, races), which the model exposes as a per-path
`failRemove` oracle — `os.remove p` raises `OSError` exactly when
`failRemove p` is true. The encoder subprocess is the only source of
nondeterminism; its outcome is passed in explicitly. -/

/-- The temp directory: path ↦ contents, first binding wins. -/
abbrev FS := List (String × Bytes)

/-- Is `p` present? -/
def fsExists (fs : FS) (p : String) : Bool := fs.any (fun e => e.1 == p)

/-- Delete `p` (all bindings for it). -/
def fsRemove (fs : FS) (p : String) : FS := fs.filter (fun e => !(e.1 == p))

/-- `file.save(path)` / the encoder writing `path`: (over)write contents. -/
def fsSave (fs : FS) (p : String) (b : Bytes) : FS := (p, b) :: fsRemove fs p

/-- Filesystem plus the `os.remove`-failure oracle. -/
structure World where
  fs : FS
  failRemove : String → Bool

/-- `if os.path.exists(p): os.remove(p)` — `none` when `os.remove` raises. -/
def guardedRemove (w : World) (p : String) : Option World :=
  if fsExists w.fs p then
    if w.failRemove p then none
    else some { w with fs := fsRemove w.fs p }
  else some w

/-- Outcome of `subprocess.run(ffmpeg_command, ..., timeout=300)` together
with what the encoder did to the output path: the 300 s timeout elapsed
(`subprocess.TimeoutExpired`), the process completed with an exit code,
captured stderr text and possibly-written output bytes, or some other
exception escaped the processing block (modelled at the invocation point,
after the upload was saved). -/
inductive RunOutcome where
  | timeout
  | completed (returncode : Int) (stderr : String) (written : Option Bytes)
  | pyError (msg : String)
deriving Repr

/-- What the handler hands to Flask: a `(jsonify({'error': e}), status)`
pair, a `send_file` attachment response, or an exception that escaped the
handler (Flask converts it into its generic 500 page). -/
inductive HttpResponse where
  | json (status : Nat) (error : String)
  | fileAttachment (status : Nat) (path : String) (downloadName : String)
  | unhandled
deriving DecidableEq, Repr

/-- HTTP status the caller observes (Flask maps an escaped exception to a
generic 500). -/
def statusOf : HttpResponse → Nat
  | .json s _ => s
  | .fileAttachment s _ _ => s
  | .unhandled => 500

/-- Error text the caller observes in a JSON error body. -/
def errorTextOf : HttpResponse → String
  | .json _ e => e
  | _ => ""

/-- The unguarded deletion pair inside the two `except` blocks
(lines 169-174 and 177-182): remove input then output; an `OSError` from
either propagates out of the handler, discarding `resp`. -/
def exceptCleanup (w : World) (inp outp : String) (resp : HttpResponse) :
    HttpResponse × World :=
  match guardedRemove w inp with
  | none => (.unhandled, w)
  | some w1 =>
    match guardedRemove w1 outp with
    | none => (.unhandled, w1)
    | some w2 => (resp, w2)

/-- The deferred `cleanup` callback (lines 156-165), run by Flask when the
response is closed after the body has been delivered: remove input then
output inside `try/except`, swallowing (printing) any deletion failure. -/
def cleanup (w : World) (inp outp : String) : World :=
  match guardedRemove w inp with
  | none => w
  | some w1 =>
    match guardedRemove w1 outp with
    | none => w1
    | some w2 => w2

/-- State of the handler at the moment it returns control to Flask. -/
structure HandlerResult where
  response : HttpResponse
  world : World
  releasesRun : Nat
  deferred : Bool

/-- Lines 94-184 of `cut_video`, from `file.save(input_path)` on: run the
encoder (outcome injected), then either raise-and-clean (timeout, non-zero
exit, missing output, unexpected exception) or build the `send_file`
response and register the deferred `cleanup` callback. `releasesRun` counts
executions of the two-path deletion block. -/
def cut_video_process (w : World) (inp outp : String) (content : Bytes)
    (outcome : RunOutcome) (job_id : String) : HandlerResult :=
  let w1 : World := { w with fs := fsSave w.fs inp content }
  match outcome with
  | .timeout =>
    let r := exceptCleanup w1 inp outp (.json 408 "Processing timeout (max 5 minutes)")
    ⟨r.1, r.2, 1, false⟩
  | .pyError msg =>
    let r := exceptCleanup w1 inp outp (.json 500 msg)
    ⟨r.1, r.2, 1, false⟩
  | .completed rc stderr written =>
    let w2 : World :=
      match written with
      | some outBytes => { w1 with fs := fsSave w1.fs outp outBytes }
      | none => w1
    if rc ≠ 0 then
      let ffmpeg_error :=
        if stderr = "" then "FFmpeg exited with code " ++ toString rc else stderr
      let r := exceptCleanup w2 inp outp (.json 500 ("FFmpeg error: " ++ ffmpeg_error))
      ⟨r.1, r.2, 1, false⟩
    else if !fsExists w2.fs outp then
      let r := exceptCleanup w2 inp outp (.json 500 "Output file not created")
      ⟨r.1, r.2, 1, false⟩
    else
      ⟨.fileAttachment 200 outp ("short_" ++ job_id ++ ".mp4"), w2, 0, true⟩

/-- A fully handled `POST /cut` request: response as delivered, final
filesystem, and how many times the two-path deletion block ran. -/
structure Handled where
  response : HttpResponse
  world : World
  releaseCount : Nat

/-- The whole `cut_video` handler plus response delivery: validation
(lines 57-84), path allocation (86-92), processing (94-184), and — when a
`send_file` response was returned — Flask closing the response after the
body is sent, which runs the registered `cleanup` callback. -/
def cut_video (w : World) (r : CutRequest) (job_id : String)
    (outcome : RunOutcome) : Handled :=
  match validateCut r with
  | .reject s e => ⟨.json s e, w, 0⟩
  | .accept fn content _ _ =>
    let inp := input_path job_id fn
    let outp := output_path job_id
    let pre := cut_video_process w inp outp content outcome job_id
    if pre.deferred then ⟨pre.response, cleanup pre.world inp outp, pre.releasesRun + 1⟩
    else ⟨pre.response, pre.world, pre.releasesRun⟩



/-! ## The encoder invocation (`app.py` lines 102-136) -/

/-- `ffmpeg_command` (lines 102-128): the exact token list handed to
`subprocess.run`. `startStr` and `durStr` stand for the Python renderings
`str(start)` / `str(duration)` of the validated floats. -/
def ffmpeg_command (startStr durStr inp outp : String) : List String :=
  ["/usr/bin/ffmpeg", "-y", "-hide_banner", "-loglevel", "error",
   "-ss", startStr, "-t", durStr, "-i", inp,
   "-vf", "scale=1080:-1", "-c:v", "libx264", "-preset", "fast",
   "-crf", "22", "-pix_fmt", "yuv420p", "-c:a", "aac", "-b:a", "128k",
   "-ar", "48000", "-ac", "2", "-movflags", "+faststart", outp]

/-- A child-process invocation as `subprocess.run` receives it: the argument
vector, whether a shell interprets the command line (`shell=True`), and the
wall-clock timeout in seconds. -/
structure ProcInvocation where
  argv : List String
  useShell : Bool
  timeoutSec : Option Nat
deriving DecidableEq, Repr

/-- Lines 131-136: `subprocess.run(ffmpeg_command, capture_output=True,
text=True, timeout=300)` — an argument list, no `shell=True`. -/
def encoderInvocation (startStr durStr inp outp : String) : ProcInvocation :=
  { argv := ffmpeg_command startStr durStr inp outp
    useShell := false
    timeoutSec := some 300 }

/-! ## Substring occurrence (for "contains the diagnostic verbatim") -/

/-- Does `pat` occur at the head of `l`? -/
def startsWithL : List Char → List Char → Bool
  | [], _ => true
  | _ :: _, [] => false
  | a :: pat, b :: l => a == b && startsWithL pat l

/-- Does `pat` occur contiguously anywhere in `l`? -/
def hasSub (l pat : List Char) : Bool :=
  match l with
  | [] => pat.isEmpty
  | _ :: t => startsWithL pat l || hasSub t pat

/-! ## Job tokens and path confinement (for the workspace claims) -/

/-- The characters `str(uuid.uuid4())` can produce: lowercase hex digits and
the dash. -/
def hexOrDash (c : Char) : Bool :=
  (48 ≤ c.toNat && c.toNat ≤ 57) || (97 ≤ c.toNat && c.toNat ≤ 102) || c.toNat = 45

/-- Shape of a `str(uuid.uuid4())` job token: 36 characters, all lowercase
hex digits or dashes. -/
def uuidLike (j : String) : Prop :=
  j.data.length = 36 ∧ ∀ c ∈ j.data, hexOrDash c = true

/-- A path that cannot escape the shared temp directory: it is `/tmp/`
followed by a single non-empty component that contains no separator and is
neither `.` nor `..` — so it resolves to a direct child of `/tmp`. -/
def confinedUnderTmp (pathStr : String) : Prop :=
  ∃ name : List Char, pathStr.data = "/tmp/".data ++ name ∧ name ≠ [] ∧
    name ≠ ['.'] ∧ name ≠ ['.', '.'] ∧ ∀ c ∈ name, c ≠ '/'

/-! ## Sanity evaluations of the embedding on concrete inputs -/

example : (pyFloat "12.5").isSome = true := rfl
example : pyFloat "abc" = none := by decide
example : pyFloat "-3" = some (-3) := by decide
example : pyFloat " 15 " = some 15 := by decide
example : pyFloat "" = none := by decide
example : pyFloat "." = none := by decide
example : (pyFloat "1.").isSome = true := rfl
example : (pyFloat ".5").isSome = true := rfl
example : allowed_file "video.MP4" = true := by decide
example : allowed_file "video" = false := by decide
example : allowed_file "clip.txt" = false := by decide
example : allowed_file "a.b.mkv" = true := by decide
example : validateCut ⟨none, none, none⟩ = .reject 400 "No file provided" := by decide
example : validateCut ⟨some ⟨"a.mp4", []⟩, none, some "30"⟩ = .accept "a.mp4" [] 0 30 := by decide
example : validateCut ⟨some ⟨"a.mp4", []⟩, none, some "10"⟩ =
    .reject 400 "Duration must be between 15 and 60 seconds" := by decide

example :
    secure_filename "00000000-0000-4000-8000-000000000000_input_video.mp4" =
      "00000000-0000-4000-8000-000000000000_input_video.mp4" := by decide
example : secure_filename "../../etc/passwd" = "etc_passwd" := by decide
example : input_path "j" "a.mp4" = "/tmp/j_input_a.mp4" := by decide
example :
    (cut_video ⟨[], fun _ => false⟩ ⟨some ⟨"a.mp4", [7]⟩, none, some "30"⟩ "j" .timeout).response =
      .json 408 "Processing timeout (max 5 minutes)" := by decide
example :
    (cut_video ⟨[], fun _ => false⟩ ⟨some ⟨"a.mp4", [7]⟩, none, some "30"⟩ "j"
        (.completed 0 "" (some [1]))).response =
      .fileAttachment 200 "/tmp/j_output.mp4" "short_j.mp4" := by decide
example :
    (cut_video ⟨[], fun _ => false⟩ ⟨some ⟨"a.mp4", [7]⟩, none, some "30"⟩ "j"
        (.completed 0 "" (some [1]))).world.fs = [] := by decide
example :
    (cut_video ⟨[], fun p => p = "/tmp/j_input_a.mp4"⟩ ⟨some ⟨"a.mp4", [7]⟩, none, some "30"⟩ "j"
        .timeout).response = .unhandled := by decide

/-! ## Helper lemmas on lists and the filesystem -/

theorem takeWhile_of_middle {p : Char → Bool} (xs : List Char) (y : Char) (ys : List Char)
    (hxs : ∀ c ∈ xs, p c = true) (hy : p y = false) :
    (xs ++ y :: ys).takeWhile p = xs := by
  induction xs with
  | nil => simp [List.takeWhile_cons, hy]
  | cons a as ih =>
    have ha : p a = true := hxs a (by simp)
    simp only [List.cons_append, List.takeWhile_cons, ha, if_true]
    rw [ih (fun c hc => hxs c (by simp [hc]))]

theorem contains_false_not_mem {l : List Char} {c : Char} (h : l.contains c = false) :
    c ∉ l := by
  intro hmem
  have h2 : l.contains c = true := List.elem_eq_true_of_mem hmem
  rw [h2] at h
  exact Bool.noConfusion h

theorem afterLastDot_append {a b : List Char} (hb : b.contains '.' = false) :
    afterLastDot (a ++ '.' :: b) = b := by
  have hmem := contains_false_not_mem hb
  have hrev : (a ++ '.' :: b).reverse = b.reverse ++ '.' :: a.reverse := by
    rw [List.reverse_append, List.reverse_cons, List.append_assoc]
    rfl
  unfold afterLastDot
  rw [hrev, takeWhile_of_middle (p := fun c => decide (c ≠ '.')) b.reverse '.' a.reverse
      (fun c hc => by
        simp only [decide_eq_true_eq]
        intro he
        exact hmem (by simpa [he] using (List.mem_reverse.mp hc)))
      (by simp), List.reverse_reverse]

theorem fsExists_fsRemove (fs : FS) (p q : String) :
    fsExists (fsRemove fs q) p = (!(p == q) && fsExists fs p) := by
  rw [Bool.eq_iff_iff]
  simp only [fsExists, fsRemove, List.any_eq_true, List.mem_filter, Bool.and_eq_true,
    Bool.not_eq_true', beq_iff_eq, beq_eq_false_iff_ne]
  constructor
  · rintro ⟨e, ⟨he, hq⟩, hp⟩
    exact ⟨by rw [← hp]; exact hq, e, he, hp⟩
  · rintro ⟨hpq, e, he, hp⟩
    exact ⟨e, ⟨he, by rw [hp]; exact hpq⟩, hp⟩

theorem fsExists_fsSave (fs : FS) (p q : String) (b : Bytes) :
    fsExists (fsSave fs q b) p = ((p == q) || fsExists fs p) := by
  show List.any ((q, b) :: fsRemove fs q) (fun e => e.1 == p) = _
  rw [List.any_cons]
  have hrem : (List.any (fsRemove fs q) fun e => e.1 == p) = fsExists (fsRemove fs q) p := rfl
  rw [hrem, fsExists_fsRemove]
  by_cases h : p = q
  · subst h; simp
  · rw [show ((q, b).1 == p) = false from beq_eq_false_iff_ne.mpr (fun he : q = p => h he.symm),
      beq_eq_false_iff_ne.mpr h]
    simp

theorem guardedRemove_ok {w : World} {p : String} (h : w.failRemove p = false) :
    guardedRemove w p = some { w with fs := fsRemove w.fs p } := by
  unfold guardedRemove
  by_cases he : fsExists w.fs p
  · simp [he, h]
  · simp only [he, Bool.false_eq_true, if_false]
    have hrem : fsRemove w.fs p = w.fs := by
      apply List.filter_eq_self.mpr
      intro e hme
      simp only [fsExists, List.any_eq_true] at he
      push_neg at he
      simpa using he e hme
    simp [hrem]

/-! ## C3: rejection ordering of the validation stage -/

/-- C3: `POST /cut` checks requests in source order, an earlier rejection
preempting all later checks, each with status 400 and its specific message:
missing file part, then empty filename, then disallowed extension (message
naming the allowed types), then non-numeric/negative `start`, then
missing/non-numeric/negative `duration`, then the duration range. -/
theorem c3_rejection_ordering (r : CutRequest) :
    (r.file = none → validateCut r = .reject 400 "No file provided")
    ∧ (∀ f, r.file = some f → f.filename = "" →
        validateCut r = .reject 400 "Empty filename")
    ∧ (∀ f, r.file = some f → f.filename ≠ "" → allowed_file f.filename = false →
        validateCut r = .reject 400 "Invalid file type. Allowed: mp4, avi, mov, mkv, webm")
    ∧ (∀ f, r.file = some f → f.filename ≠ "" → allowed_file f.filename = true →
        validate_timestamp (r.start.getD "0") = false →
        validateCut r = .reject 400 "Invalid start timestamp")
    ∧ (∀ f, r.file = some f → f.filename ≠ "" → allowed_file f.filename = true →
        validate_timestamp (r.start.getD "0") = true →
        validate_timestamp (r.duration.getD "") = false →
        validateCut r = .reject 400 "Invalid or missing duration")
    ∧ (∀ f d, r.file = some f → f.filename ≠ "" → allowed_file f.filename = true →
        validate_timestamp (r.start.getD "0") = true →
        pyFloat (r.duration.getD "") = some d → 0 ≤ d → (d < 15 ∨ 60 < d) →
        validateCut r = .reject 400 "Duration must be between 15 and 60 seconds") := by
  refine ⟨?_, ?_, ?_, ?_, ?_, ?_⟩
  · intro h; simp [validateCut, h]
  · intro f hf hname; simp [validateCut, hf, hname]
  · intro f hf hname hext; simp [validateCut, hf, hname, hext]
  · intro f hf hname hext hstart; simp [validateCut, hf, hname, hext, hstart]
  · intro f hf hname hext hstart hdur
    cases hd : r.duration with
    | none => simp [validateCut, hf, hname, hext, hstart, hd]
    | some durStr =>
      rw [hd] at hdur
      simp only [Option.getD_some] at hdur
      simp [validateCut, hf, hname, hext, hstart, hd, hdur]
  · intro f d hf hname hext hstart hparse hd0 hrange
    cases hd : r.duration with
    | none =>
      rw [hd] at hparse
      simp only [Option.getD_none] at hparse
      have hnone : pyFloat "" = none := by decide
      rw [hnone] at hparse
      exact Option.noConfusion hparse
    | some durStr =>
      rw [hd] at hparse
      simp only [Option.getD_some] at hparse
      have hne : durStr ≠ "" := by
        intro he; rw [he] at hparse
        have : pyFloat "" = none := by decide
        rw [this] at hparse; exact Option.noConfusion hparse
      have hvt : validate_timestamp durStr = true := by
        simp [validate_timestamp, hparse, hd0]
      simp [validateCut, hf, hname, hext, hstart, hd, hne, hvt, hparse, hrange]

/-- Witness for C3: each rejection branch evaluated at a concrete request. -/
theorem c3_rejection_ordering_witness :
    validateCut ⟨none, none, none⟩ = .reject 400 "No file provided"
    ∧ validateCut ⟨some ⟨"", [1]⟩, none, none⟩ = .reject 400 "Empty filename"
    ∧ validateCut ⟨some ⟨"clip.txt", [1]⟩, none, none⟩ =
        .reject 400 "Invalid file type. Allowed: mp4, avi, mov, mkv, webm"
    ∧ validateCut ⟨some ⟨"a.mp4", [1]⟩, some "abc", some "30"⟩ =
        .reject 400 "Invalid start timestamp"
    ∧ validateCut ⟨some ⟨"a.mp4", [1]⟩, none, none⟩ =
        .reject 400 "Invalid or missing duration"
    ∧ validateCut ⟨some ⟨"a.mp4", [1]⟩, none, some "10"⟩ =
        .reject 400 "Duration must be between 15 and 60 seconds" :=
  ⟨(c3_rejection_ordering _).1 rfl,
   (c3_rejection_ordering _).2.1 _ rfl rfl,
   (c3_rejection_ordering _).2.2.1 _ rfl (by decide) (by decide),
   (c3_rejection_ordering _).2.2.2.1 _ rfl (by decide) (by decide) (by decide),
   (c3_rejection_ordering _).2.2.2.2.1 _ rfl (by decide) (by decide) (by decide) (by decide),
   (c3_rejection_ordering _).2.2.2.2.2 _ 10 rfl (by decide) (by decide) (by decide)
     (by decide) (by decide) (by decide)⟩

/-! ## C6: the duration range check is the closed interval [15, 60] -/

/-- C6: once the earlier checks pass, a parsed duration `d` is rejected with
the duration-range error exactly when `d` lies outside `[15, 60]`; the
boundary values 15 and 60 are accepted. -/
theorem c6_duration_interval (f : FilePart) (st : Option String) (durStr : String) (d : ℚ)
    (hname : f.filename ≠ "") (hext : allowed_file f.filename = true)
    (hstart : validate_timestamp (st.getD "0") = true)
    (hparse : pyFloat durStr = some d) (hd0 : 0 ≤ d) :
    (validateCut ⟨some f, st, some durStr⟩ =
        .reject 400 "Duration must be between 15 and 60 seconds")
      ↔ (d < 15 ∨ 60 < d) := by
  have hne : durStr ≠ "" := by
    intro he; rw [he] at hparse
    have : pyFloat "" = none := by decide
    rw [this] at hparse; exact Option.noConfusion hparse
  have hvt : validate_timestamp durStr = true := by
    simp [validate_timestamp, hparse, hd0]
  constructor
  · intro h
    by_contra hc
    push_neg at hc
    simp [validateCut, hname, hext, hstart, hne, hvt, hparse,
      not_lt.mpr hc.1, not_lt.mpr hc.2] at h
  · intro hrange
    simp [validateCut, hname, hext, hstart, hne, hvt, hparse, hrange]

/-- Witness for C6: duration 15 is accepted (the range rejection is
equivalent to the false proposition 15 ∉ [15, 60]), duration 60 likewise,
and duration 10 is rejected. -/
theorem c6_duration_interval_witness :
    ¬ (validateCut ⟨some ⟨"a.mp4", [1]⟩, none, some "15"⟩ =
        .reject 400 "Duration must be between 15 and 60 seconds")
    ∧ ¬ (validateCut ⟨some ⟨"a.mp4", [1]⟩, none, some "60"⟩ =
        .reject 400 "Duration must be between 15 and 60 seconds")
    ∧ validateCut ⟨some ⟨"a.mp4", [1]⟩, none, some "10"⟩ =
        .reject 400 "Duration must be between 15 and 60 seconds" :=
  ⟨fun h => by
      have := (c6_duration_interval ⟨"a.mp4", [1]⟩ none "15" 15 (by decide) (by decide)
        (by decide) (by decide) (by decide)).mp h
      revert this; decide,
   fun h => by
      have := (c6_duration_interval ⟨"a.mp4", [1]⟩ none "60" 60 (by decide) (by decide)
        (by decide) (by decide) (by decide)).mp h
      revert this; decide,
   (c6_duration_interval ⟨"a.mp4", [1]⟩ none "10" 10 (by decide) (by decide)
      (by decide) (by decide) (by decide)).mpr (by decide)⟩

/-! ## C7: the extension allow-list check -/

/-- C7: an upload passes the extension check iff its filename contains a dot
and the substring after the last dot, lowercased, is in
{mp4, avi, mov, mkv, webm}; rejection is certain without a dot, and the
comparison is on the lowercased extension (case-insensitive). -/
theorem c7_extension_check :
    (∀ fn : String, fn.data.contains '.' = false → allowed_file fn = false)
    ∧ (∀ a b : List Char, b.contains '.' = false →
        allowed_file (String.mk (a ++ '.' :: b)) =
          ALLOWED_EXTENSIONS.contains (String.mk (lowerStr b))) := by
  constructor
  · intro fn h
    simp only [allowed_file, h, Bool.false_and]
  · intro a b hb
    have hmem : ('.' : Char) ∈ a ++ '.' :: b := by simp
    have hcont : (a ++ '.' :: b).contains '.' = true := List.elem_eq_true_of_mem hmem
    simp only [allowed_file, afterLastDot_append hb, hcont, Bool.true_and]

/-- Witness for C7: `video.MP4` passes (case-insensitive), `clip.txt` and
the extensionless `video` fail. -/
theorem c7_extension_check_witness :
    allowed_file "video" = false
    ∧ allowed_file (String.mk ("video".data ++ '.' :: "MP4".data)) = true
    ∧ allowed_file (String.mk ("clip".data ++ '.' :: "txt".data)) = false :=
  ⟨c7_extension_check.1 "video" (by decide),
   by rw [c7_extension_check.2 "video".data "MP4".data (by decide)]; decide,
   by rw [c7_extension_check.2 "clip".data "txt".data (by decide)]; decide⟩

/-! ## C9: the encoder invocation is a discrete argument vector -/



/-- C9: for every rendering of start/duration and every pair of paths —
whatever characters they contain — the encoder invocation is a discrete
token list with no shell interpretation: the fixed 28 flag tokens plus the
four variable strings, each occupying exactly one argv slot, unmodified and
never concatenated into a command line. -/
theorem c9_discrete_argv (startStr durStr inp outp : String) :
    (encoderInvocation startStr durStr inp outp).useShell = false
    ∧ (encoderInvocation startStr durStr inp outp).timeoutSec = some 300
    ∧ (encoderInvocation startStr durStr inp outp).argv =
        ["/usr/bin/ffmpeg", "-y", "-hide_banner", "-loglevel", "error",
         "-ss", startStr, "-t", durStr, "-i", inp,
         "-vf", "scale=1080:-1", "-c:v", "libx264", "-preset", "fast",
         "-crf", "22", "-pix_fmt", "yuv420p", "-c:a", "aac", "-b:a", "128k",
         "-ar", "48000", "-ac", "2", "-movflags", "+faststart", outp]
    ∧ (encoderInvocation startStr durStr inp outp).argv.length = 32
    ∧ (encoderInvocation startStr durStr inp outp).argv.get? 6 = some startStr
    ∧ (encoderInvocation startStr durStr inp outp).argv.get? 8 = some durStr
    ∧ (encoderInvocation startStr durStr inp outp).argv.get? 10 = some inp
    ∧ (encoderInvocation startStr durStr inp outp).argv.get? 31 = some outp :=
  ⟨rfl, rfl, rfl, rfl, rfl, rfl, rfl, rfl⟩

/-! ## C10: validation ignores the uploaded bytes; no size limit -/

theorem validationOutcome_ignores_content (fn : String) (st du : Option String)
    (c1 c2 : Bytes) :
    validationOutcome ⟨some ⟨fn, c1⟩, st, du⟩ = validationOutcome ⟨some ⟨fn, c2⟩, st, du⟩ := by
  cases du with
  | none =>
    simp only [validationOutcome, validateCut]
  | some durStr =>
    simp only [validationOutcome, validateCut]
    split_ifs <;> rfl

/-- C10: the accept/reject decision of validation depends only on file
presence, filename and the `start`/`duration` fields — two requests that
differ only in the uploaded bytes get the same decision, even when one
body exceeds the declared (and never consulted) `MAX_FILE_SIZE` of 500 MB. -/
theorem c10_content_independent (fn : String) (st du : Option String) (c1 c2 : Bytes) :
    validationOutcome ⟨some ⟨fn, c1⟩, st, du⟩ = validationOutcome ⟨some ⟨fn, c2⟩, st, du⟩
    ∧ validationOutcome ⟨some ⟨fn, List.replicate (MAX_FILE_SIZE + 1) 0⟩, st, du⟩ =
        validationOutcome ⟨some ⟨fn, []⟩, st, du⟩ :=
  ⟨validationOutcome_ignores_content fn st du c1 c2,
   validationOutcome_ignores_content fn st du _ _⟩

theorem startsWithL_self (l : List Char) : startsWithL l l = true := by
  induction l with
  | nil => rfl
  | cons a t ih => simp [startsWithL, ih]

theorem hasSub_nil (l : List Char) : hasSub l [] = true := by
  cases l with
  | nil => rfl
  | cons c t =>
    show (startsWithL [] (c :: t) || hasSub t []) = true
    rw [show startsWithL [] (c :: t) = true from rfl]
    rfl

theorem hasSub_of_suffix (a b : List Char) : hasSub (a ++ b) b = true := by
  induction a with
  | nil =>
    cases b with
    | nil => rfl
    | cons c t => simp [hasSub, startsWithL_self]
  | cons c t ih => simp [hasSub, ih]

/-! ## Reductions of the cleanup blocks when `os.remove` succeeds -/

theorem guardedRemove_mk (fs : FS) (fr : String → Bool) (p : String) (h : fr p = false) :
    guardedRemove ⟨fs, fr⟩ p = some ⟨fsRemove fs p, fr⟩ :=
  guardedRemove_ok h

theorem exceptCleanup_mk (fs : FS) (fr : String → Bool) (inp outp : String)
    (resp : HttpResponse) (h1 : fr inp = false) (h2 : fr outp = false) :
    exceptCleanup ⟨fs, fr⟩ inp outp resp = (resp, ⟨fsRemove (fsRemove fs inp) outp, fr⟩) := by
  simp only [exceptCleanup, guardedRemove_mk fs fr inp h1,
    guardedRemove_mk (fsRemove fs inp) fr outp h2]

theorem cleanup_mk (fs : FS) (fr : String → Bool) (inp outp : String)
    (h1 : fr inp = false) (h2 : fr outp = false) :
    cleanup ⟨fs, fr⟩ inp outp = ⟨fsRemove (fsRemove fs inp) outp, fr⟩ := by
  simp only [cleanup, guardedRemove_mk fs fr inp h1,
    guardedRemove_mk (fsRemove fs inp) fr outp h2]

theorem fsExists_remove_remove_fst (fs : FS) (a b : String) :
    fsExists (fsRemove (fsRemove fs a) b) a = false := by
  simp [fsExists_fsRemove]

theorem fsExists_remove_remove_snd (fs : FS) (a b : String) :
    fsExists (fsRemove (fsRemove fs a) b) b = false := by
  simp [fsExists_fsRemove]

/-! ## C5: timeout, missing-output and unexpected-exception responses -/

/-- C5: for a validated request (fresh workspace, deletions succeed):
a timeout yields exactly 408 `Processing timeout (max 5 minutes)`; a zero
exit with no output file yields 500 `Output file not created`; an unexpected
exception after workspace allocation yields 500 carrying its text. -/
theorem c5_failure_responses (w : World) (r : CutRequest) (j : String)
    (fn : String) (content : Bytes) (s d : ℚ)
    (hv : validateCut r = .accept fn content s d)
    (hok : ∀ p, w.failRemove p = false)
    (hne : input_path j fn ≠ output_path j)
    (hfresh : fsExists w.fs (output_path j) = false) :
    (cut_video w r j .timeout).response = .json 408 "Processing timeout (max 5 minutes)"
    ∧ (∀ stderr, (cut_video w r j (.completed 0 stderr none)).response =
        .json 500 "Output file not created")
    ∧ (∀ msg, (cut_video w r j (.pyError msg)).response = .json 500 msg) := by
  obtain ⟨fs0, fr0⟩ := w
  have hok0 : ∀ p, fr0 p = false := hok
  refine ⟨?_, ?_, ?_⟩
  · simp [cut_video, hv, cut_video_process, exceptCleanup_mk, hok0]
  · intro stderr
    have hout : fsExists (fsSave fs0 (input_path j fn) content) (output_path j) = false := by
      rw [fsExists_fsSave]
      simp only [beq_eq_false_iff_ne.mpr (fun h : output_path j = input_path j fn => hne h.symm),
        Bool.false_or]
      exact hfresh
    simp [cut_video, hv, cut_video_process, exceptCleanup_mk, hok0, hout]
  · intro msg
    simp [cut_video, hv, cut_video_process, exceptCleanup_mk, hok0]

/-- Witness for C5 at a concrete request and job. -/
theorem c5_failure_responses_witness :
    (cut_video ⟨[], fun _ => false⟩ ⟨some ⟨"a.mp4", [7]⟩, none, some "30"⟩ "j"
        .timeout).response = .json 408 "Processing timeout (max 5 minutes)"
    ∧ (cut_video ⟨[], fun _ => false⟩ ⟨some ⟨"a.mp4", [7]⟩, none, some "30"⟩ "j"
        (.completed 0 "" none)).response = .json 500 "Output file not created"
    ∧ (cut_video ⟨[], fun _ => false⟩ ⟨some ⟨"a.mp4", [7]⟩, none, some "30"⟩ "j"
        (.pyError "boom")).response = .json 500 "boom" := by
  have h := c5_failure_responses ⟨[], fun _ => false⟩ ⟨some ⟨"a.mp4", [7]⟩, none, some "30"⟩
    "j" "a.mp4" [7] 0 30 (by decide) (fun _ => rfl) (by decide) rfl
  exact ⟨h.1, h.2.1 "", h.2.2 "boom"⟩

/-! ## C4: encoder failure — stderr is verbatim, the exit code is dropped

Lines 138-141 raise `Exception(f"FFmpeg error: {result.stderr or ...}")`:
when stderr is non-empty the exception text (and hence the 500 body) is the
stderr verbatim behind the fixed prefix, and the exit code appears nowhere;
only when stderr is empty does the fallback text carry the exit code. -/

/-- Counterexample to C4 as stated: with exit code 2 and stderr `boom`, the
500 body is exactly `FFmpeg error: boom` — it contains the diagnostic
verbatim, but the failure surfaced to the caller does not carry the exit
code (the digit 2 occurs nowhere in the error text). -/
theorem c4_exit_code_dropped :
    (cut_video ⟨[], fun _ => false⟩ ⟨some ⟨"a.mp4", [7]⟩, none, some "30"⟩ "j"
        (.completed 2 "boom" none)).response = .json 500 "FFmpeg error: boom"
    ∧ hasSub (errorTextOf ((cut_video ⟨[], fun _ => false⟩
        ⟨some ⟨"a.mp4", [7]⟩, none, some "30"⟩ "j"
        (.completed 2 "boom" none)).response)).data (toString (2 : Int)).data = false := by
  decide

/-- C4 (amended): on a non-zero encoder exit the handler returns 500 whose
error text is `FFmpeg error: ` followed by the captured stderr verbatim when
stderr is non-empty, and by `FFmpeg exited with code <rc>` when stderr is
empty; the stderr text always occurs verbatim in the body, but the exit
code is carried only in the empty-stderr fallback. -/
theorem c4_stderr_surfaced (w : World) (r : CutRequest) (j : String)
    (fn : String) (content : Bytes) (s d : ℚ) (rc : Int) (stderr : String)
    (written : Option Bytes)
    (hv : validateCut r = .accept fn content s d)
    (hok : ∀ p, w.failRemove p = false)
    (hrc : rc ≠ 0) :
    (cut_video w r j (.completed rc stderr written)).response =
      .json 500 ("FFmpeg error: " ++
        (if stderr = "" then "FFmpeg exited with code " ++ toString rc else stderr))
    ∧ hasSub (errorTextOf (cut_video w r j (.completed rc stderr written)).response).data
        stderr.data = true
    ∧ (stderr = "" →
        hasSub (errorTextOf (cut_video w r j (.completed rc stderr written)).response).data
          (toString rc).data = true) := by
  obtain ⟨fs0, fr0⟩ := w
  have hok0 : ∀ p, fr0 p = false := hok
  have hresp : (cut_video ⟨fs0, fr0⟩ r j (.completed rc stderr written)).response =
      .json 500 ("FFmpeg error: " ++
        (if stderr = "" then "FFmpeg exited with code " ++ toString rc else stderr)) := by
    cases written with
    | none => simp [cut_video, hv, cut_video_process, exceptCleanup_mk, hok0, hrc]
    | some outBytes => simp [cut_video, hv, cut_video_process, exceptCleanup_mk, hok0, hrc]
  refine ⟨hresp, ?_, ?_⟩
  · rw [hresp]
    by_cases hs : stderr = ""
    · subst hs
      exact hasSub_nil _
    · show hasSub ("FFmpeg error: " ++
        (if stderr = "" then "FFmpeg exited with code " ++ toString rc else stderr)).data
          stderr.data = true
      rw [if_neg hs, String.data_append]
      exact hasSub_of_suffix _ _
  · intro hs
    subst hs
    rw [hresp]
    show hasSub ("FFmpeg error: " ++
      (if ("" : String) = "" then "FFmpeg exited with code " ++ toString rc
        else "")).data (toString rc).data = true
    rw [if_pos rfl, String.data_append, String.data_append, ← List.append_assoc]
    exact hasSub_of_suffix _ _

/-- Witness for the amended C4: exit code 2 with stderr `boom`, and exit
code 3 with empty stderr. -/
theorem c4_stderr_surfaced_witness :
    (cut_video ⟨[], fun _ => false⟩ ⟨some ⟨"a.mp4", [7]⟩, none, some "30"⟩ "jb"
        (.completed 2 "boom" none)).response = .json 500 "FFmpeg error: boom"
    ∧ (cut_video ⟨[], fun _ => false⟩ ⟨some ⟨"a.mp4", [7]⟩, none, some "30"⟩ "jb"
        (.completed 3 "" none)).response =
        .json 500 ("FFmpeg error: " ++ "FFmpeg exited with code " ++ toString (3 : Int))
    ∧ hasSub (errorTextOf (cut_video ⟨[], fun _ => false⟩
        ⟨some ⟨"a.mp4", [7]⟩, none, some "30"⟩ "jb"
        (.completed 3 "" none)).response).data (toString (3 : Int)).data = true := by
  have h2 := c4_stderr_surfaced ⟨[], fun _ => false⟩
    ⟨some ⟨"a.mp4", [7]⟩, none, some "30"⟩ "jb" "a.mp4" [7] 0 30 2 "boom" none
    (by decide) (fun _ => rfl) (by decide)
  have h3 := c4_stderr_surfaced ⟨[], fun _ => false⟩
    ⟨some ⟨"a.mp4", [7]⟩, none, some "30"⟩ "jb" "a.mp4" [7] 0 30 3 "" none
    (by decide) (fun _ => rfl) (by decide)
  refine ⟨?_, ?_, h3.2.2 rfl⟩
  · rw [h2.1]
    rfl
  · rw [h3.1]
    rfl

/-! ## C2: deletion failures are swallowed only on the success path

The deferred `cleanup` callback (lines 157-165) wraps its deletions in
`try/except`; the deletions in the `except subprocess.TimeoutExpired` and
`except Exception` blocks (lines 171-174, 179-182) are unguarded, so an
`OSError` from `os.remove` there escapes the handler and the caller gets the
framework's generic 500 instead of the 408/500 JSON body. -/

/-- Counterexample to C2 as stated: a validated request that times out while
its input file is undeletable. The deletion failure is not swallowed — the
unhandled exception replaces the 408 response, so the caller does not
receive `{"error": "Processing timeout (max 5 minutes)"}` (they get the
generic 500). -/
theorem c2_deletion_failure_masks_timeout :
    (cut_video ⟨[], fun p => p = "/tmp/jx_input_a.mp4"⟩
        ⟨some ⟨"a.mp4", [7]⟩, none, some "30"⟩ "jx" .timeout).response = .unhandled
    ∧ statusOf (cut_video ⟨[], fun p => p = "/tmp/jx_input_a.mp4"⟩
        ⟨some ⟨"a.mp4", [7]⟩, none, some "30"⟩ "jx" .timeout).response = 500
    ∧ (cut_video ⟨[], fun p => p = "/tmp/jx_input_a.mp4"⟩
        ⟨some ⟨"a.mp4", [7]⟩, none, some "30"⟩ "jx" .timeout).response ≠
        .json 408 "Processing timeout (max 5 minutes)" := by
  decide

/-- C2 (amended): only the success path's deferred cleanup swallows deletion
failures — there the 200 `send_file` response is unaffected whatever
`os.remove` does, and the release still runs exactly once; on the timeout
and encoder-failure paths deletion is unguarded, so with an undeletable
input file the original 408 / encoder-error 500 JSON response is replaced by
an unhandled exception (the framework's generic 500). -/
theorem c2_release_never_raises_only_on_success (w : World) (r : CutRequest) (j : String)
    (fn : String) (content : Bytes) (s d : ℚ)
    (hv : validateCut r = .accept fn content s d) :
    (∀ stderr outBytes,
      (cut_video w r j (.completed 0 stderr (some outBytes))).response =
        .fileAttachment 200 (output_path j) ("short_" ++ j ++ ".mp4")
      ∧ (cut_video w r j (.completed 0 stderr (some outBytes))).releaseCount = 1)
    ∧ (w.failRemove (input_path j fn) = true →
        (cut_video w r j .timeout).response = .unhandled
        ∧ (cut_video w r j .timeout).response ≠
            .json 408 "Processing timeout (max 5 minutes)")
    ∧ (∀ rc stderr written, rc ≠ 0 → w.failRemove (input_path j fn) = true →
        (cut_video w r j (.completed rc stderr written)).response = .unhandled) := by
  obtain ⟨fs0, fr0⟩ := w
  refine ⟨?_, ?_, ?_⟩
  · intro stderr outBytes
    have hex : fsExists (fsSave (fsSave fs0 (input_path j fn) content) (output_path j) outBytes)
        (output_path j) = true := by
      rw [fsExists_fsSave]
      simp
    constructor
    · simp [cut_video, hv, cut_video_process, hex]
    · simp [cut_video, hv, cut_video_process, hex]
  · intro hfail
    have hfail0 : fr0 (input_path j fn) = true := hfail
    have hin : fsExists (fsSave fs0 (input_path j fn) content) (input_path j fn) = true := by
      rw [fsExists_fsSave]
      simp
    constructor
    · simp [cut_video, hv, cut_video_process, exceptCleanup, guardedRemove, hin, hfail0]
    · simp [cut_video, hv, cut_video_process, exceptCleanup, guardedRemove, hin, hfail0]
  · intro rc stderr written hrc hfail
    have hfail0 : fr0 (input_path j fn) = true := hfail
    cases written with
    | none =>
      have hin : fsExists (fsSave fs0 (input_path j fn) content) (input_path j fn) = true := by
        rw [fsExists_fsSave]
        simp
      simp [cut_video, hv, cut_video_process, exceptCleanup, guardedRemove, hin, hfail0, hrc]
    | some outBytes =>
      have hin : fsExists (fsSave (fsSave fs0 (input_path j fn) content) (output_path j) outBytes)
          (input_path j fn) = true := by
        rw [fsExists_fsSave, fsExists_fsSave]
        simp
      simp [cut_video, hv, cut_video_process, exceptCleanup, guardedRemove, hin, hfail0, hrc]

/-- Witness for the amended C2 at a concrete request: success path with an
undeletable input still returns the 200 attachment with one release; the
timeout and encoder-failure paths turn the same deletion failure into an
unhandled error. -/
theorem c2_release_never_raises_only_on_success_witness :
    ((cut_video ⟨[], fun p => p = "/tmp/jw_input_a.mp4"⟩
        ⟨some ⟨"a.mp4", [7]⟩, none, some "30"⟩ "jw"
        (.completed 0 "" (some [1]))).response =
      .fileAttachment 200 (output_path "jw") ("short_" ++ "jw" ++ ".mp4")
      ∧ (cut_video ⟨[], fun p => p = "/tmp/jw_input_a.mp4"⟩
          ⟨some ⟨"a.mp4", [7]⟩, none, some "30"⟩ "jw"
          (.completed 0 "" (some [1]))).releaseCount = 1)
    ∧ (cut_video ⟨[], fun p => p = "/tmp/jw_input_a.mp4"⟩
        ⟨some ⟨"a.mp4", [7]⟩, none, some "30"⟩ "jw" .timeout).response = .unhandled
    ∧ (cut_video ⟨[], fun p => p = "/tmp/jw_input_a.mp4"⟩
        ⟨some ⟨"a.mp4", [7]⟩, none, some "30"⟩ "jw"
        (.completed 5 "oops" none)).response = .unhandled := by
  have h := c2_release_never_raises_only_on_success
    ⟨[], fun p => p = "/tmp/jw_input_a.mp4"⟩
    ⟨some ⟨"a.mp4", [7]⟩, none, some "30"⟩ "jw" "a.mp4" [7] 0 30 (by decide)
  exact ⟨h.1 "" [1], (h.2.1 (by decide)).1, h.2.2 5 "oops" none (by decide) (by decide)⟩

/-! ## C1: both temp paths are gone after every exit path, released once -/

/-- C1: for every request that passes validation (so the workspace paths are
allocated and the upload saved) and any encoder outcome — success, non-zero
exit, timeout, or an unexpected exception — once the request is fully
handled (including, on success, the deferred post-delivery cleanup) neither
the input path nor the output path exists, and the two-path deletion block
ran exactly once; on the success path the deletion was deferred: at the
moment the handler returned its response both files still existed.
(`os.remove` is assumed to succeed; its failure modes are C2's subject.) -/
theorem c1_workspace_released_once (w : World) (r : CutRequest) (j : String)
    (outcome : RunOutcome) (fn : String) (content : Bytes) (s d : ℚ)
    (hv : validateCut r = .accept fn content s d)
    (hok : ∀ p, w.failRemove p = false) :
    fsExists (cut_video w r j outcome).world.fs (input_path j fn) = false
    ∧ fsExists (cut_video w r j outcome).world.fs (output_path j) = false
    ∧ (cut_video w r j outcome).releaseCount = 1
    ∧ ((cut_video_process w (input_path j fn) (output_path j) content outcome j).deferred =
          true →
        fsExists (cut_video_process w (input_path j fn) (output_path j) content
            outcome j).world.fs (input_path j fn) = true
        ∧ fsExists (cut_video_process w (input_path j fn) (output_path j) content
            outcome j).world.fs (output_path j) = true) := by
  obtain ⟨fs0, fr0⟩ := w
  have hok0 : ∀ p, fr0 p = false := hok
  set inp := input_path j fn with hinp
  set outp := output_path j with houtp
  cases outcome with
  | timeout =>
    simp [cut_video, hv, cut_video_process, exceptCleanup_mk, hok0,
      fsExists_remove_remove_fst, fsExists_remove_remove_snd]
  | pyError msg =>
    simp [cut_video, hv, cut_video_process, exceptCleanup_mk, hok0,
      fsExists_remove_remove_fst, fsExists_remove_remove_snd]
  | completed rc stderr written =>
    by_cases hrc : rc = 0
    · subst hrc
      cases written with
      | none =>
        by_cases hex : fsExists (fsSave fs0 inp content) outp = true
        · simp [cut_video, hv, cut_video_process, hex, cleanup_mk, hok0,
            fsExists_remove_remove_fst, fsExists_remove_remove_snd, fsExists_fsSave]
        · simp only [Bool.not_eq_true] at hex
          simp [cut_video, hv, cut_video_process, hex, exceptCleanup_mk, hok0,
            fsExists_remove_remove_fst, fsExists_remove_remove_snd]
      | some outBytes =>
        have hex : fsExists (fsSave (fsSave fs0 inp content) outp outBytes) outp = true := by
          rw [fsExists_fsSave]
          simp
        simp [cut_video, hv, cut_video_process, hex, cleanup_mk, hok0,
          fsExists_remove_remove_fst, fsExists_remove_remove_snd, fsExists_fsSave]
    · cases written with
      | none =>
        simp [cut_video, hv, cut_video_process, hrc, exceptCleanup_mk, hok0,
          fsExists_remove_remove_fst, fsExists_remove_remove_snd]
      | some outBytes =>
        simp [cut_video, hv, cut_video_process, hrc, exceptCleanup_mk, hok0,
          fsExists_remove_remove_fst, fsExists_remove_remove_snd]

/-- Witness for C1: a concrete request run through all four exit paths. -/
theorem c1_workspace_released_once_witness :
    (fsExists (cut_video ⟨[], fun _ => false⟩ ⟨some ⟨"a.mp4", [7]⟩, none, some "30"⟩ "jc"
        (.completed 0 "" (some [1]))).world.fs (input_path "jc" "a.mp4") = false
      ∧ fsExists (cut_video ⟨[], fun _ => false⟩ ⟨some ⟨"a.mp4", [7]⟩, none, some "30"⟩ "jc"
          (.completed 0 "" (some [1]))).world.fs (output_path "jc") = false
      ∧ (cut_video ⟨[], fun _ => false⟩ ⟨some ⟨"a.mp4", [7]⟩, none, some "30"⟩ "jc"
          (.completed 0 "" (some [1]))).releaseCount = 1)
    ∧ (cut_video ⟨[], fun _ => false⟩ ⟨some ⟨"a.mp4", [7]⟩, none, some "30"⟩ "jc"
        .timeout).releaseCount = 1
    ∧ (cut_video ⟨[], fun _ => false⟩ ⟨some ⟨"a.mp4", [7]⟩, none, some "30"⟩ "jc"
        (.completed 1 "x" none)).releaseCount = 1
    ∧ (cut_video ⟨[], fun _ => false⟩ ⟨some ⟨"a.mp4", [7]⟩, none, some "30"⟩ "jc"
        (.pyError "boom")).releaseCount = 1 := by
  have hs := c1_workspace_released_once ⟨[], fun _ => false⟩
    ⟨some ⟨"a.mp4", [7]⟩, none, some "30"⟩ "jc" (.completed 0 "" (some [1]))
    "a.mp4" [7] 0 30 (by decide) (fun _ => rfl)
  have ht := c1_workspace_released_once ⟨[], fun _ => false⟩
    ⟨some ⟨"a.mp4", [7]⟩, none, some "30"⟩ "jc" .timeout
    "a.mp4" [7] 0 30 (by decide) (fun _ => rfl)
  have hf := c1_workspace_released_once ⟨[], fun _ => false⟩
    ⟨some ⟨"a.mp4", [7]⟩, none, some "30"⟩ "jc" (.completed 1 "x" none)
    "a.mp4" [7] 0 30 (by decide) (fun _ => rfl)
  have hp := c1_workspace_released_once ⟨[], fun _ => false⟩
    ⟨some ⟨"a.mp4", [7]⟩, none, some "30"⟩ "jc" (.pyError "boom")
    "a.mp4" [7] 0 30 (by decide) (fun _ => rfl)
  exact ⟨⟨hs.1, hs.2.1, hs.2.2.1⟩, ht.2.2.1, hf.2.2.1, hp.2.2.1⟩

/-! ## C8: workspace paths — sanitizer and token machinery -/



theorem hexOrDash_keep {c : Char} (h : hexOrDash c = true) : keepFileChar c = true := by
  simp only [hexOrDash, keepFileChar, Bool.or_eq_true, Bool.and_eq_true,
    decide_eq_true_eq] at h ⊢
  omega

theorem hexOrDash_not_strip {c : Char} (h : hexOrDash c = true) : stripChar c = false := by
  simp only [hexOrDash, Bool.or_eq_true, Bool.and_eq_true, decide_eq_true_eq] at h
  simp only [stripChar, Bool.or_eq_false_iff, decide_eq_false_iff_not]
  omega

theorem keep_not_ws {c : Char} (h : keepFileChar c = true) : isWs c = false := by
  simp only [keepFileChar, Bool.or_eq_true, Bool.and_eq_true, decide_eq_true_eq] at h
  simp only [isWs, Bool.or_eq_false_iff, decide_eq_false_iff_not]
  omega

theorem keep_ascii {c : Char} (h : keepFileChar c = true) : c.toNat < 128 := by
  simp only [keepFileChar, Bool.or_eq_true, Bool.and_eq_true, decide_eq_true_eq] at h
  omega

theorem keep_not_slash {c : Char} (h : keepFileChar c = true) : c ≠ '/' := by
  intro he
  rw [he] at h
  exact absurd h (by decide)

theorem hexOrDash_not_slash {c : Char} (h : hexOrDash c = true) : c ≠ '/' := by
  intro he
  rw [he] at h
  exact absurd h (by decide)

theorem asciiOnly_clean (p r : List Char) (hall : ∀ c ∈ p, keepFileChar c = true) :
    asciiOnly (p ++ r) = p ++ asciiOnly r := by
  unfold asciiOnly
  rw [List.filter_append]
  congr 1
  exact List.filter_eq_self.mpr (fun c hc => decide_eq_true (keep_ascii (hall c hc)))

theorem sepToSpace_clean (p r : List Char) (hall : ∀ c ∈ p, keepFileChar c = true) :
    sepToSpace (p ++ r) = p ++ sepToSpace r := by
  unfold sepToSpace
  rw [List.map_append]
  congr 1
  induction p with
  | nil => rfl
  | cons c cs ih =>
    have hc := keep_not_slash (hall c (by simp))
    simp only [List.map_cons, if_neg hc]
    rw [ih (fun x hx => hall x (by simp [hx]))]

theorem splitWsAux_no_ws (p : List Char) (hws : ∀ c ∈ p, isWs c = false) :
    ∀ r acc, splitWsAux (p ++ r) acc = splitWsAux r (p.reverse ++ acc) := by
  induction p with
  | nil => intro r acc; simp
  | cons c cs ih =>
    intro r acc
    have hc : isWs c = false := hws c (by simp)
    simp only [List.cons_append, splitWsAux, hc, Bool.false_eq_true, if_false]
    show splitWsAux (cs ++ r) (c :: acc) = _
    rw [ih (fun x hx => hws x (by simp [hx])) r (c :: acc)]
    simp

theorem join_splitWsAux (r : List Char) :
    ∀ acc, acc ≠ [] → ∃ t, joinUnderscore (splitWsAux r acc) = acc.reverse ++ t := by
  induction r with
  | nil =>
    intro acc hacc
    refine ⟨[], ?_⟩
    simp [splitWsAux, hacc, joinUnderscore]
  | cons c cs ih =>
    intro acc hacc
    by_cases hc : isWs c = true
    · cases hrest : splitWsAux cs [] with
      | nil =>
        refine ⟨[], ?_⟩
        simp [splitWsAux, hc, hacc, hrest, joinUnderscore]
      | cons x xs =>
        refine ⟨'_' :: joinUnderscore (x :: xs), ?_⟩
        simp only [splitWsAux, hc, if_true, hacc, if_neg hacc, hrest]
        rfl
    · simp only [Bool.not_eq_true] at hc
      obtain ⟨t, ht⟩ := ih (c :: acc) (by simp)
      refine ⟨c :: t, ?_⟩
      simp only [splitWsAux, hc, Bool.false_eq_true, if_false, ht]
      simp

theorem join_split_clean (p r : List Char) (hp : p ≠ [])
    (hall : ∀ c ∈ p, keepFileChar c = true) :
    ∃ t, joinUnderscore (pySplitWs (p ++ r)) = p ++ t := by
  unfold pySplitWs
  rw [splitWsAux_no_ws p (fun c hc => keep_not_ws (hall c hc)) r [], List.append_nil]
  obtain ⟨t, ht⟩ := join_splitWsAux r p.reverse (by simpa using hp)
  rw [List.reverse_reverse] at ht
  exact ⟨t, ht⟩

theorem dropWhile_reaches (f : Char → Bool) (a b : List Char) (hb : b.dropWhile f = b) :
    ∃ u, (a ++ b).dropWhile f = u ++ b := by
  induction a with
  | nil => exact ⟨[], by simpa using hb⟩
  | cons c cs ih =>
    by_cases hc : f c = true
    · obtain ⟨u, hu⟩ := ih
      exact ⟨u, by simpa [List.dropWhile_cons_of_pos hc] using hu⟩
    · exact ⟨c :: cs, by simp [List.dropWhile_cons_of_neg hc]⟩

theorem stripEnds_clean (p t : List Char)
    (hc : ∃ c p2, p = c :: p2 ∧ stripChar c = false)
    (hrev : ∃ c q, p.reverse = c :: q ∧ stripChar c = false) :
    ∃ u, stripEnds (p ++ t) = p ++ u := by
  obtain ⟨c, p2, hpc, hcs⟩ := hc
  obtain ⟨d, q, hq, hds⟩ := hrev
  unfold stripEnds
  have h1 : (p ++ t).dropWhile stripChar = p ++ t := by
    rw [hpc]
    exact List.dropWhile_cons_of_neg (by simp [hcs])
  rw [h1, List.reverse_append]
  have h2 : p.reverse.dropWhile stripChar = p.reverse := by
    rw [hq]
    exact List.dropWhile_cons_of_neg (by simp [hds])
  obtain ⟨u, hu⟩ := dropWhile_reaches stripChar t.reverse p.reverse h2
  rw [hu, List.reverse_append, List.reverse_reverse]
  exact ⟨u.reverse, rfl⟩

theorem secure_filename_clean_head (p r : List Char) (hp : p ≠ [])
    (hall : ∀ c ∈ p, keepFileChar c = true)
    (hc : ∃ c p2, p = c :: p2 ∧ stripChar c = false)
    (hrev : ∃ c q, p.reverse = c :: q ∧ stripChar c = false) :
    ∃ t, (secure_filename (String.mk (p ++ r))).data = p ++ t := by
  unfold secure_filename
  have hd : (String.mk (p ++ r)).data = p ++ r := rfl
  rw [hd, asciiOnly_clean p r hall, sepToSpace_clean p _ hall]
  obtain ⟨t1, ht1⟩ := join_split_clean p (sepToSpace (asciiOnly r)) hp hall
  rw [ht1, List.filter_append, List.filter_eq_self.mpr hall]
  obtain ⟨u, hu⟩ := stripEnds_clean p (t1.filter keepFileChar) hc hrev
  rw [hu]
  exact ⟨u, rfl⟩

theorem secure_filename_chars (s : String) :
    ∀ c ∈ (secure_filename s).data, keepFileChar c = true := by
  intro c hc
  unfold secure_filename at hc
  have h1 : c ∈ stripEnds ((joinUnderscore (pySplitWs (sepToSpace
      (asciiOnly s.data)))).filter keepFileChar) := hc
  unfold stripEnds at h1
  rw [List.mem_reverse] at h1
  have h2 := List.Sublist.mem h1 (List.dropWhile_sublist stripChar)
  rw [List.mem_reverse] at h2
  have h3 := List.Sublist.mem h2 (List.dropWhile_sublist stripChar)
  exact (List.mem_filter.mp h3).2

/-! ## C8: path shapes -/

theorem uuid_head (j : String) (hj : uuidLike j) :
    ∃ c rest, j.data = c :: rest ∧ hexOrDash c = true := by
  obtain ⟨hlen, hhex⟩ := hj
  cases h : j.data with
  | nil => rw [h] at hlen; simp at hlen
  | cons c rest =>
    exact ⟨c, rest, rfl, hhex c (by rw [h]; exact List.mem_cons_self c rest)⟩

theorem input_filename_starts (j fn : String) (hj : uuidLike j) :
    ∃ t, (input_filename j fn).data = (j.data ++ "_input".data) ++ t := by
  obtain ⟨c, rest, hcons, hchex⟩ := uuid_head j hj
  have hall : ∀ x ∈ j.data ++ "_input".data, keepFileChar x = true := by
    intro x hx
    rcases List.mem_append.mp hx with h | h
    · exact hexOrDash_keep (hj.2 x h)
    · have hlit : ∀ y ∈ "_input".data, keepFileChar y = true := by decide
      exact hlit x h
  have hPne : j.data ++ "_input".data ≠ [] := by
    rw [hcons]; simp
  have hc : ∃ a p2, j.data ++ "_input".data = a :: p2 ∧ stripChar a = false := by
    refine ⟨c, rest ++ "_input".data, ?_, hexOrDash_not_strip hchex⟩
    rw [hcons]; rfl
  have hrev : ∃ a q, (j.data ++ "_input".data).reverse = a :: q ∧ stripChar a = false := by
    refine ⟨'t', ['u', 'p', 'n', 'i', '_'] ++ j.data.reverse, ?_, by decide⟩
    rw [List.reverse_append]
    rfl
  have harg : (j ++ "_input_" ++ fn) =
      String.mk ((j.data ++ "_input".data) ++ ('_' :: fn.data)) := by
    apply String.ext
    show ((j ++ "_input_") ++ fn).data = (j.data ++ "_input".data) ++ ('_' :: fn.data)
    rw [String.data_append, String.data_append, List.append_assoc, List.append_assoc]
    rfl
  obtain ⟨t, ht⟩ := secure_filename_clean_head (j.data ++ "_input".data) ('_' :: fn.data)
    hPne hall hc hrev
  refine ⟨t, ?_⟩
  show (secure_filename (j ++ "_input_" ++ fn)).data = _
  rw [harg, ht]

theorem os_path_join_tmp (b : String) (c : Char) (rest : List Char)
    (hb : b.data = c :: rest) (hc : c ≠ '/') :
    (os_path_join UPLOAD_FOLDER b).data = "/tmp/".data ++ b.data := by
  have h1 : ¬ (b.data.head? = some '/') := by
    rw [hb]
    simp [hc]
  have h2 : ¬ (("/tmp" : String).data.getLast? = some '/') := by decide
  unfold os_path_join UPLOAD_FOLDER
  rw [if_neg h1, if_neg h2, String.data_append, String.data_append]
  rfl

theorem output_filename_data (j : String) :
    (output_filename j).data = j.data ++ "_output.mp4".data :=
  String.data_append j _

theorem output_path_data (j : String) (hj : uuidLike j) :
    (output_path j).data = "/tmp/".data ++ (j.data ++ "_output.mp4".data) := by
  obtain ⟨c, rest, hcons, hchex⟩ := uuid_head j hj
  have hb : (output_filename j).data = c :: (rest ++ "_output.mp4".data) := by
    rw [output_filename_data, hcons]
    rfl
  show (os_path_join UPLOAD_FOLDER (output_filename j)).data = _
  rw [os_path_join_tmp _ c _ hb (hexOrDash_not_slash hchex), output_filename_data]

theorem input_path_data (j fn : String) (hj : uuidLike j) :
    ∃ t, (input_path j fn).data = "/tmp/".data ++ (j.data ++ ("_input".data ++ t))
      ∧ (input_filename j fn).data = j.data ++ ("_input".data ++ t) := by
  obtain ⟨c, rest, hcons, hchex⟩ := uuid_head j hj
  obtain ⟨t, ht⟩ := input_filename_starts j fn hj
  rw [List.append_assoc] at ht
  have hb : (input_filename j fn).data = c :: (rest ++ ("_input".data ++ t)) := by
    rw [ht, hcons]
    rfl
  refine ⟨t, ?_, ht⟩
  show (os_path_join UPLOAD_FOLDER (input_filename j fn)).data = _
  rw [os_path_join_tmp _ c _ hb (hexOrDash_not_slash hchex), ht]

theorem token_head_neq {j1 j2 : String} {a b : List Char}
    (h1 : j1.data.length = 36) (h2 : j2.data.length = 36) (hne : j1 ≠ j2)
    (h : j1.data ++ a = j2.data ++ b) : False :=
  hne (String.ext (List.append_inj h (h1.trans h2.symm)).1)



/-- C8: with uuid-shaped job tokens, both per-job paths are confined to the
temp directory — one sanitized component, no separator or traversal
contributed by the user-supplied filename — and two jobs with distinct
tokens never share either path (all four cross-comparisons differ). -/
theorem c8_paths_confined_and_collision_free (j1 j2 fn1 fn2 : String)
    (h1 : uuidLike j1) (h2 : uuidLike j2) (hne : j1 ≠ j2) :
    confinedUnderTmp (input_path j1 fn1)
    ∧ confinedUnderTmp (output_path j1)
    ∧ input_path j1 fn1 ≠ input_path j2 fn2
    ∧ output_path j1 ≠ output_path j2
    ∧ input_path j1 fn1 ≠ output_path j2
    ∧ output_path j1 ≠ input_path j2 fn2 := by
  obtain ⟨t1, hp1, hf1⟩ := input_path_data j1 fn1 h1
  obtain ⟨t2, hp2, hf2⟩ := input_path_data j2 fn2 h2
  have ho1 := output_path_data j1 h1
  have ho2 := output_path_data j2 h2
  have hlit : ∀ y ∈ "_output.mp4".data, y ≠ '/' := by decide
  refine ⟨?_, ?_, ?_, ?_, ?_, ?_⟩
  · refine ⟨(input_filename j1 fn1).data, by rw [hp1, hf1], ?_, ?_, ?_, ?_⟩
    · rw [hf1]
      obtain ⟨c, rest, hcons, _⟩ := uuid_head j1 h1
      rw [hcons]
      simp
    · intro heq
      have := congrArg List.length heq
      rw [hf1] at this
      simp [List.length_append, h1.1] at this
      omega
    · intro heq
      have := congrArg List.length heq
      rw [hf1] at this
      simp [List.length_append, h1.1] at this
      omega
    · intro c hc
      exact keep_not_slash (secure_filename_chars _ c hc)
  · refine ⟨(output_filename j1).data, by rw [ho1, output_filename_data], ?_, ?_, ?_, ?_⟩
    · rw [output_filename_data]
      obtain ⟨c, rest, hcons, _⟩ := uuid_head j1 h1
      rw [hcons]
      simp
    · intro heq
      have := congrArg List.length heq
      rw [output_filename_data] at this
      simp [List.length_append, h1.1] at this
    · intro heq
      have := congrArg List.length heq
      rw [output_filename_data] at this
      simp [List.length_append, h1.1] at this
    · intro c hc
      rw [output_filename_data] at hc
      rcases List.mem_append.mp hc with h | h
      · exact hexOrDash_not_slash (h1.2 c h)
      · exact hlit c h
  · intro heq
    have hd := congrArg String.data heq
    rw [hp1, hp2] at hd
    exact token_head_neq h1.1 h2.1 hne (List.append_cancel_left hd)
  · intro heq
    have hd := congrArg String.data heq
    rw [ho1, ho2] at hd
    exact token_head_neq h1.1 h2.1 hne (List.append_cancel_left hd)
  · intro heq
    have hd := congrArg String.data heq
    rw [hp1, ho2] at hd
    exact token_head_neq h1.1 h2.1 hne (List.append_cancel_left hd)
  · intro heq
    have hd := congrArg String.data heq
    rw [ho1, hp2] at hd
    exact token_head_neq h1.1 h2.1 hne (List.append_cancel_left hd)

/-- Witness for C8 at two concrete uuid4-shaped tokens. -/
theorem c8_paths_confined_and_collision_free_witness :
    confinedUnderTmp (input_path "123e4567-e89b-42d3-a456-426614174000" "video.mp4")
    ∧ confinedUnderTmp (output_path "123e4567-e89b-42d3-a456-426614174000")
    ∧ input_path "123e4567-e89b-42d3-a456-426614174000" "video.mp4" ≠
        input_path "00000000-0000-4000-8000-000000000000" "video.mp4"
    ∧ output_path "123e4567-e89b-42d3-a456-426614174000" ≠
        output_path "00000000-0000-4000-8000-000000000000"
    ∧ input_path "123e4567-e89b-42d3-a456-426614174000" "video.mp4" ≠
        output_path "00000000-0000-4000-8000-000000000000"
    ∧ output_path "123e4567-e89b-42d3-a456-426614174000" ≠
        input_path "00000000-0000-4000-8000-000000000000" "video.mp4" :=
  c8_paths_confined_and_collision_free
    "123e4567-e89b-42d3-a456-426614174000" "00000000-0000-4000-8000-000000000000"
    "video.mp4" "video.mp4"
    ⟨by decide, by decide⟩ ⟨by decide, by decide⟩ (by decide)
